import Mathlib

/-!
Verification of the cinema-studio video-engine effect pipeline.

Shallow embedding of the C sources under packages/video-engine/src.
Conventions used throughout:
  * C float and double values are modelled as rationals; arithmetic is exact.
  * uint8_t pixel bytes are modelled as Fin 256.
  * C int values are modelled as Int, size_t counts as Nat.
  * Pointers that a claim needs to be able to be NULL are modelled as Option;
    a pointer into the pool arena is modelled as its integer byte offset from
    the arena base.
  * Mutation is modelled by explicit state passing: each C function that
    mutates its arguments returns the updated values.
-/

/-- Pixel byte, models uint8_t. -/
abbrev Byte := Fin 256

namespace CinemaStudio

/-- Model of video_frame_t from include/video_engine.h. The data field models
the byte buffer the data pointer points at. Formats: 0 = RGB, 1 = RGBA,
2 = YUV420. -/
structure video_frame_t where
  data : List Byte
  width : Int
  height : Int
  stride : Int
  format : Int
  timestamp : ℚ
  frame_number : Int
deriving DecidableEq

/-- Model of memory_pool_t from include/video_engine.h. The mem field models
the byte contents of the malloc arena pointed at by the pool field. -/
structure memory_pool_t where
  mem : List Byte
  pool_size : ℕ
  block_size : ℕ
  used_blocks : List Bool
  total_blocks : ℕ
  used_count : ℕ
deriving DecidableEq

/-- Helper for memset(ptr, 0, len): zeroes len bytes of mem starting at byte
index start. Bytes past the end of mem are not represented (a straddling
memset past the arena end is out-of-bounds in C; the model simply stops at
the end of the arena). -/
def zero_range : List Byte → ℕ → ℕ → List Byte
  | [], _, _ => []
  | b :: rest, start, len =>
      if start = 0 then
        if len = 0 then b :: rest
        else (0 : Byte) :: zero_range rest 0 (len - 1)
      else b :: zero_range rest (start - 1) len

/-- Model of memory_pool_alloc from src/core/memory_manager.c: first-fit scan
over the occupancy array; on success the chosen block is marked used and the
returned value is the byte contents of that block (in C, a pointer to it). -/
def memory_pool_alloc (pool : memory_pool_t) :
    Option (List Byte) × memory_pool_t :=
  if pool.used_count ≥ pool.total_blocks then (none, pool)
  else
    match pool.used_blocks.findIdx? (fun b => !b) with
    | none => (none, pool)
    | some i =>
        (some ((pool.mem.drop (i * pool.block_size)).take pool.block_size),
         { pool with used_blocks := pool.used_blocks.set i true,
                     used_count := pool.used_count + 1 })

/-- Model of memory_pool_free from src/core/memory_manager.c. The ptr argument
is the byte offset of the freed pointer from the arena base (ptr - pool->pool
in the C source); none models a NULL ptr. Note, mirroring the source: the
block index is the offset divided by the block size with no alignment check,
and the memset of block_size bytes starts at ptr itself, not at the start of
the containing block. -/
def memory_pool_free (pool : memory_pool_t) (ptr : Option Int) :
    memory_pool_t :=
  match ptr with
  | none => pool
  | some off =>
      if off < 0 ∨ (pool.pool_size : Int) ≤ off then pool
      else if pool.total_blocks ≤ off.toNat / pool.block_size then pool
      else if pool.used_blocks.getD (off.toNat / pool.block_size) false then
        { pool with
            used_blocks :=
              pool.used_blocks.set (off.toNat / pool.block_size) false,
            used_count := pool.used_count - 1,
            mem := zero_range pool.mem off.toNat pool.block_size }
      else pool

/-- Byte lookup specification of zero_range: position j becomes zero exactly
when it lies in the zeroed window. -/
theorem zero_range_getD (mem : List Byte) (start len j : ℕ)
    (hj : j < mem.length) :
    (zero_range mem start len).getD j 0 =
      if start ≤ j ∧ j < start + len then 0 else mem.getD j 0 := by
  induction mem generalizing start len j with
  | nil => exact absurd hj (by simp)
  | cons b rest ih =>
      cases j with
      | zero =>
          cases start with
          | zero =>
              cases len with
              | zero => simp [zero_range]
              | succ m => simp [zero_range]
          | succ s => simp [zero_range]
      | succ k =>
          have hk : k < rest.length := by
            simpa using Nat.lt_of_succ_lt_succ hj
          cases start with
          | zero =>
              cases len with
              | zero => simp [zero_range]
              | succ m =>
                  have h1 := ih 0 m k hk
                  rw [zero_range, if_pos rfl, if_neg (Nat.succ_ne_zero m),
                    List.getD_cons_succ, Nat.succ_sub_one, h1]
                  by_cases hc : k < m
                  · rw [if_pos ⟨Nat.zero_le _, by omega⟩,
                      if_pos ⟨Nat.zero_le _, by omega⟩]
                  · rw [if_neg (by omega), if_neg (by omega),
                      List.getD_cons_succ]
          | succ s =>
              have h1 := ih s len k hk
              rw [zero_range, if_neg (Nat.succ_ne_zero s),
                List.getD_cons_succ, Nat.succ_sub_one, h1]
              by_cases hc : s ≤ k ∧ k < s + len
              · rw [if_pos hc, if_pos (by omega)]
              · rw [if_neg hc, if_neg (by omega), List.getD_cons_succ]

/-- C7 (amended): memory_pool_free is a no-op for a NULL ptr, for a ptr
outside the pool address range, and when the containing block (index
off / block_size; alignment is not checked) is already free, so double-free
is idempotent. When the containing block is in use, the call marks that block
free, decrements used_count, and zeroes block_size bytes starting at the ptr
offset itself; when the ptr is aligned to a block boundary this zeroes
exactly that block of memory. -/
theorem memory_pool_free_spec (pool : memory_pool_t) (off : Int) :
    (memory_pool_free pool none = pool)
    ∧ (off < 0 ∨ (pool.pool_size : Int) ≤ off →
        memory_pool_free pool (some off) = pool)
    ∧ (0 ≤ off → off < (pool.pool_size : Int) →
        pool.used_blocks.getD (off.toNat / pool.block_size) false = false →
        memory_pool_free pool (some off) = pool)
    ∧ (0 ≤ off → off < (pool.pool_size : Int) →
        off.toNat / pool.block_size < pool.total_blocks →
        pool.used_blocks.getD (off.toNat / pool.block_size) false = true →
        memory_pool_free pool (some off) =
          { pool with
              used_blocks :=
                pool.used_blocks.set (off.toNat / pool.block_size) false,
              used_count := pool.used_count - 1,
              mem := zero_range pool.mem off.toNat pool.block_size })
    ∧ (∀ i : ℕ, 0 < pool.block_size → off = (i * pool.block_size : ℕ) →
        off < (pool.pool_size : Int) → i < pool.total_blocks →
        pool.used_blocks.getD i false = true →
        ∀ j : ℕ, j < pool.mem.length →
          (memory_pool_free pool (some off)).mem.getD j 0 =
            if i * pool.block_size ≤ j ∧ j < (i + 1) * pool.block_size then 0
            else pool.mem.getD j 0) := by
  refine ⟨rfl, ?_, ?_, ?_, ?_⟩
  · intro h
    simp only [memory_pool_free]
    rw [if_pos h]
  · intro h1 h2 h3
    simp only [memory_pool_free]
    rw [if_neg (by omega)]
    by_cases h4 : pool.total_blocks ≤ off.toNat / pool.block_size
    · rw [if_pos h4]
    · rw [if_neg h4, h3]
      simp
  · intro h1 h2 h3 h4
    simp only [memory_pool_free]
    rw [if_neg (by omega), if_neg (by omega), if_pos h4]
  · intro i hbs hoff hsize hi hbit j hj
    have h0 : (0 : Int) ≤ off := by
      rw [hoff]; exact Int.natCast_nonneg _
    have hidx : off.toNat / pool.block_size = i := by
      have : off.toNat = i * pool.block_size := by omega
      rw [this, Nat.mul_div_cancel _ hbs]
    simp only [memory_pool_free]
    rw [if_neg (by omega), if_neg (by rw [hidx]; omega), if_pos (by rw [hidx]; exact hbit)]
    have hmem :
        (zero_range pool.mem off.toNat pool.block_size).getD j 0 =
          if off.toNat ≤ j ∧ j < off.toNat + pool.block_size then 0
          else pool.mem.getD j 0 := zero_range_getD _ _ _ _ hj
    have hoffn : off.toNat = i * pool.block_size := by omega
    rw [hmem, hoffn]
    by_cases hc : i * pool.block_size ≤ j ∧ j < i * pool.block_size + pool.block_size
    · rw [if_pos hc, if_pos (by constructor <;> [exact hc.1; nlinarith [hc.2]])]
    · rw [if_neg hc, if_neg (by rw [Nat.succ_mul] at *; exact fun h => hc ⟨h.1, h.2⟩)]

/-- Concrete pool for the C7 counterexample: two 4-byte blocks, block 0 in
use, every arena byte 1. -/
def pool_ex : memory_pool_t :=
  { mem := List.replicate 8 (1 : Byte)
    pool_size := 8
    block_size := 4
    used_blocks := [true, false]
    total_blocks := 2
    used_count := 1 }

/-- C7 counterexample: the claim says a ptr that does not align to a block
boundary makes the free call a no-op, but the source performs no alignment
check: freeing offset 2 of pool_ex (inside in-use block 0, not a block
boundary) changes the pool, marking block 0 free and zeroing bytes 2..5,
which straddles into block 1. -/
theorem memory_pool_free_misaligned_not_noop :
    memory_pool_free pool_ex (some 2) ≠ pool_ex := by decide

/-- Witness for memory_pool_free_spec at a concrete aligned input. -/
theorem memory_pool_free_spec_witness :
    memory_pool_free pool_ex (some 0) =
      { pool_ex with
          used_blocks := pool_ex.used_blocks.set 0 false,
          used_count := pool_ex.used_count - 1,
          mem := zero_range pool_ex.mem 0 4 } :=
  (memory_pool_free_spec pool_ex 0).2.2.2.1 (by decide) (by decide)
    (by decide) (by decide)

/-- Model of effect_type_t from include/effects_engine.h. -/
inductive effect_type_t where
  | filter
  | transition
  | transform
  | color_correction
deriving DecidableEq

/-- Model of filter_type_t from include/filters.h. -/
inductive filter_type_t where
  | brightness
  | contrast
  | saturation
  | hue
  | blur
  | sharpen
  | noise_reduction
  | edge_detection
deriving DecidableEq

/-- Model of transition_type_t from include/transitions.h. -/
inductive transition_type_t where
  | fade
  | dissolve
  | wipe_left
  | wipe_right
  | wipe_up
  | wipe_down
deriving DecidableEq

/-- Priority constant EFFECT_PRIORITY_COLOR_CORRECTION. -/
def EFFECT_PRIORITY_COLOR_CORRECTION : Int := 1

/-- Priority constant EFFECT_PRIORITY_FILTER. -/
def EFFECT_PRIORITY_FILTER : Int := 2

/-- Priority constant EFFECT_PRIORITY_TRANSFORM : Int := 3. -/
def EFFECT_PRIORITY_TRANSFORM : Int := 3

/-- Priority constant EFFECT_PRIORITY_TRANSITION. -/
def EFFECT_PRIORITY_TRANSITION : Int := 4

/-- Model of filter_params_t from include/filters.h. -/
structure filter_params_t where
  type : filter_type_t
  intensity : ℚ
  param1 : ℚ
  param2 : ℚ
  param3 : ℚ
  enabled : Bool
deriving DecidableEq

/-- Model of color_correction_t from include/filters.h. -/
structure color_correction_t where
  brightness : ℚ
  contrast : ℚ
  saturation : ℚ
  hue : ℚ
  gamma : ℚ
  exposure : ℚ
deriving DecidableEq

/-- Model of blur_params_t from include/filters.h. -/
structure blur_params_t where
  radius : ℚ
  iterations : Int
  gaussian : Bool
deriving DecidableEq

/-- Model of transform_params_t from include/filters.h. -/
structure transform_params_t where
  scale : ℚ
  rotation : ℚ
  flip_horizontal : Int
  flip_vertical : Int
  crop_x : Int
  crop_y : Int
  crop_width : Int
  crop_height : Int
deriving DecidableEq

/-- Model of transition_params_t from include/transitions.h. -/
structure transition_params_t where
  type : transition_type_t
  duration : ℚ
  progress : ℚ
  ease_in : ℚ
  ease_out : ℚ
deriving DecidableEq

/-- Model of the params union inside effect_t. The C union overlays these
members in one storage area; the model stores them separately, which is
faithful for every code path the claims touch, since the engine dispatch
reads the member matching the effect type. -/
structure effect_params_u where
  filter : filter_params_t
  color_correction : color_correction_t
  blur : blur_params_t
  transform : transform_params_t
  transition : transition_params_t
deriving DecidableEq

/-- Model of effect_t from include/effects_engine.h. The priority field is
the C enum value stored as an int. The intensity_curve float[8] array is
modelled as a list. -/
structure effect_t where
  type : effect_type_t
  priority : Int
  enabled : Bool
  params : effect_params_u
  start_time : ℚ
  end_time : ℚ
  intensity_curve : List ℚ
  keyframe_count : Int
deriving DecidableEq

/-- Constant MAX_EFFECTS_CHAIN from include/effects_engine.h. -/
def MAX_EFFECTS_CHAIN : ℕ := 32

/-- Model of effect_chain_t from include/effects_engine.h. The effects field
models the first count entries of the fixed effects[32] array (entries past
count are never read by the sources). -/
structure effect_chain_t where
  effects : List effect_t
  sorted : Bool
  memory_pool : Option memory_pool_t
  temp_frame_1 : Option video_frame_t
  temp_frame_2 : Option video_frame_t
  temp_frames_allocated : Bool
deriving DecidableEq

/-- Model of effect_chain_create from src/effects/effects_engine.c: zeroed
struct, count 0, sorted true, temp frames not allocated. -/
def effect_chain_create : effect_chain_t :=
  { effects := []
    sorted := true
    memory_pool := none
    temp_frame_1 := none
    temp_frame_2 := none
    temp_frames_allocated := false }

/-- Model of effect_chain_add from src/effects/effects_engine.c: capacity
check, copy of the effect into the next slot, count increment, sorted flag
cleared; returns the index of the new entry or -1. The NULL chain and NULL
effect failure paths are absorbed by the model taking values. -/
def effect_chain_add (chain : effect_chain_t) (effect : effect_t) :
    Int × effect_chain_t :=
  if MAX_EFFECTS_CHAIN ≤ chain.effects.length then (-1, chain)
  else ((chain.effects.length : Int),
        { chain with effects := chain.effects ++ [effect], sorted := false })

/-- Model of effect_chain_remove from src/effects/effects_engine.c: bounds
check, then shift of the following entries down by one and count decrement.
Note, mirroring the source: the sorted flag is not touched. -/
def effect_chain_remove (chain : effect_chain_t) (index : Int) :
    Bool × effect_chain_t :=
  if index < 0 ∨ (chain.effects.length : Int) ≤ index then (false, chain)
  else (true, { chain with effects := chain.effects.eraseIdx index.toNat })

/-- Model of effect_chain_clear from src/effects/effects_engine.c. -/
def effect_chain_clear (chain : effect_chain_t) : effect_chain_t :=
  { chain with effects := [], sorted := true }

/-- Comparison relation realised by effect_compare from
src/effects/effects_engine.c: effect_compare a b = a.priority - b.priority,
so a sorts no later than b exactly when effect_compare a b is at most 0. -/
def effect_le (a b : effect_t) : Prop := a.priority ≤ b.priority

instance : DecidableRel effect_le :=
  fun a b => inferInstanceAs (Decidable (a.priority ≤ b.priority))

instance : IsTotal effect_t effect_le :=
  ⟨fun a b => Int.le_total a.priority b.priority⟩

instance : IsTrans effect_t effect_le :=
  ⟨fun _ _ _ hab hbc => le_trans hab hbc⟩

/-- Contract of the C library qsort call in effect_chain_sort: the output is
some permutation of the input that is ascending for effect_compare. The C
standard leaves the order of comparison-equal elements unspecified, so the
model quantifies over every function satisfying this contract. -/
def SorterOK (sorter : List effect_t → List effect_t) : Prop :=
  ∀ l, (sorter l).Perm l ∧ (sorter l).Pairwise effect_le

/-- Model of effect_chain_sort from src/effects/effects_engine.c,
parameterised by the qsort realisation: early return when the chain has at
most one entry or is already flagged sorted, otherwise qsort by
effect_compare and set the sorted flag. -/
def effect_chain_sort (sorter : List effect_t → List effect_t)
    (chain : effect_chain_t) : effect_chain_t :=
  if chain.effects.length ≤ 1 then chain
  else if chain.sorted then chain
  else { chain with effects := sorter chain.effects, sorted := true }

/-- One concrete qsort realisation: stable insertion sort by effect_le. -/
def sorter_insertion : List effect_t → List effect_t :=
  List.insertionSort effect_le

theorem sorter_insertion_ok : SorterOK sorter_insertion := fun l =>
  ⟨List.perm_insertionSort effect_le l, List.sorted_insertionSort effect_le l⟩

/-- All-zero union payload, for building concrete test effects. -/
def effect_params_zero : effect_params_u :=
  { filter := { type := .brightness, intensity := 0, param1 := 0, param2 := 0,
                param3 := 0, enabled := false }
    color_correction := { brightness := 0, contrast := 0, saturation := 0,
                          hue := 0, gamma := 0, exposure := 0 }
    blur := { radius := 0, iterations := 0, gaussian := false }
    transform := { scale := 0, rotation := 0, flip_horizontal := 0,
                   flip_vertical := 0, crop_x := 0, crop_y := 0,
                   crop_width := 0, crop_height := 0 }
    transition := { type := .fade, duration := 0, progress := 0,
                    ease_in := 0, ease_out := 0 } }

/-- Concrete enabled effect of a given type and priority tier. -/
def mk_effect (ty : effect_type_t) (pr : Int) : effect_t :=
  { type := ty, priority := pr, enabled := true, params := effect_params_zero,
    start_time := 0, end_time := 0, intensity_curve := [], keyframe_count := 0 }

/-- Scenario effect with the ColorCorrection tier. -/
def effect_cc : effect_t :=
  mk_effect .color_correction EFFECT_PRIORITY_COLOR_CORRECTION

/-- Scenario effect with the Filter tier. -/
def effect_fl : effect_t := mk_effect .filter EFFECT_PRIORITY_FILTER

/-- Scenario effect with the Transform tier. -/
def effect_tf : effect_t := mk_effect .transform EFFECT_PRIORITY_TRANSFORM

/-- Scenario effect with the Transition tier. -/
def effect_tr : effect_t := mk_effect .transition EFFECT_PRIORITY_TRANSITION

/-- Chain built by inserting tiers in the order Transition, Filter,
ColorCorrection, Transform, as in the spec scenario for C5. -/
def chain_scenario : effect_chain_t :=
  (effect_chain_add
    (effect_chain_add
      (effect_chain_add
        (effect_chain_add effect_chain_create effect_tr).2
        effect_fl).2
      effect_cc).2
    effect_tf).2

/-- Identification of a scenario effect from its priority tier. -/
theorem scenario_mem_priority (x : effect_t)
    (hm : x ∈ [effect_tr, effect_fl, effect_cc, effect_tf]) :
    (x.priority = 1 → x = effect_cc) ∧ (x.priority = 2 → x = effect_fl) ∧
    (x.priority = 3 → x = effect_tf) ∧ (x.priority = 4 → x = effect_tr) := by
  simp only [List.mem_cons, List.not_mem_nil, or_false] at hm
  rcases hm with h | h | h | h <;> subst h <;> exact ⟨by decide, by decide, by decide, by decide⟩

/-- Any permutation of the four distinct-tier scenario effects that is
ascending for effect_compare is the tier-ordered one. -/
theorem scenario_sorted_unique (l : List effect_t)
    (hp : l.Perm [effect_tr, effect_fl, effect_cc, effect_tf])
    (hs : l.Pairwise effect_le) :
    l = [effect_cc, effect_fl, effect_tf, effect_tr] := by
  have hlen : l.length = 4 := by simpa using hp.length_eq
  obtain ⟨a, b, c, d, rfl⟩ : ∃ a b c d, l = [a, b, c, d] := by
    rcases l with _ | ⟨a, _ | ⟨b, _ | ⟨c, _ | ⟨d, _ | ⟨e, t⟩⟩⟩⟩⟩
    · simp at hlen
    · simp at hlen
    · simp at hlen
    · simp at hlen
    · exact ⟨a, b, c, d, rfl⟩
    · simp at hlen
  · have hmap2 : ([a, b, c, d].map fun e => e.priority).Perm [1, 2, 3, 4] :=
      (hp.map fun e => e.priority).trans (by decide)
    have hsort1 : ([a, b, c, d].map fun e => e.priority).Sorted (· ≤ ·) := by
      rw [List.Sorted, List.pairwise_map]
      exact hs
    have heq : ([a, b, c, d].map fun e => e.priority) = [1, 2, 3, 4] :=
      List.eq_of_perm_of_sorted hmap2 hsort1 (by decide)
    simp only [List.map_cons, List.map_nil, List.cons.injEq, and_true] at heq
    obtain ⟨hpa, hpb, hpc, hpd⟩ := heq
    have hma := scenario_mem_priority a (hp.subset (by simp))
    have hmb := scenario_mem_priority b (hp.subset (by simp))
    have hmc := scenario_mem_priority c (hp.subset (by simp))
    have hmd := scenario_mem_priority d (hp.subset (by simp))
    rw [hma.1 hpa, hmb.2.1 hpb, hmc.2.2.1 hpc, hmd.2.2.2 hpd]

/-- C5 (amended): for every chain whose sorted flag, when set, is truthful,
and every qsort realisation obeying the C contract, the entries after
effect_chain_sort appear in non-decreasing priority-tier order and are a
permutation of the previous entries; the order of entries with equal
priority tier is not specified (qsort is not a stable sort). In particular
inserting effects with tiers {Transition, Filter, ColorCorrection,
Transform} and sorting yields execution order {ColorCorrection, Filter,
Transform, Transition}. -/
theorem effect_chain_sort_spec (sorter : List effect_t → List effect_t)
    (hok : SorterOK sorter) :
    (∀ chain : effect_chain_t,
      (chain.sorted = true → chain.effects.Pairwise effect_le) →
      (effect_chain_sort sorter chain).effects.Pairwise effect_le
        ∧ (effect_chain_sort sorter chain).effects.Perm chain.effects)
    ∧ (effect_chain_sort sorter chain_scenario).effects =
        [effect_cc, effect_fl, effect_tf, effect_tr] := by
  constructor
  · intro chain hflag
    unfold effect_chain_sort
    by_cases h1 : chain.effects.length ≤ 1
    · rw [if_pos h1]
      refine ⟨?_, List.Perm.refl _⟩
      match hl : chain.effects with
      | [] => exact List.Pairwise.nil
      | [a] => exact List.pairwise_singleton _ _
      | a :: b :: t => rw [hl] at h1; simp at h1
    · rw [if_neg h1]
      by_cases h2 : chain.sorted
      · rw [if_pos h2]
        exact ⟨hflag h2, List.Perm.refl _⟩
      · rw [if_neg h2]
        exact ⟨(hok chain.effects).2, (hok chain.effects).1⟩
  · have heff : chain_scenario.effects =
        [effect_tr, effect_fl, effect_cc, effect_tf] := by decide
    have hflag : chain_scenario.sorted = false := by decide
    have hlen : ¬ chain_scenario.effects.length ≤ 1 := by decide
    unfold effect_chain_sort
    rw [if_neg hlen, hflag, if_neg (by simp)]
    have hperm := (hok chain_scenario.effects).1
    have hpair := (hok chain_scenario.effects).2
    rw [heff] at hperm
    exact scenario_sorted_unique _ hperm hpair

/-- Witness for effect_chain_sort_spec at the insertion-sort qsort
realisation and the spec scenario chain. -/
theorem effect_chain_sort_spec_witness :
    (effect_chain_sort sorter_insertion chain_scenario).effects =
      [effect_cc, effect_fl, effect_tf, effect_tr] :=
  (effect_chain_sort_spec sorter_insertion sorter_insertion_ok).2

/-- Tie-breaking test effect A: Filter tier, start_time 1. -/
def effect_eqA : effect_t :=
  { mk_effect .filter EFFECT_PRIORITY_FILTER with start_time := 1 }

/-- Tie-breaking test effect B: Filter tier, start_time 2. -/
def effect_eqB : effect_t :=
  { mk_effect .filter EFFECT_PRIORITY_FILTER with start_time := 2 }

/-- Chain holding the two equal-tier effects in insertion order A then B. -/
def chain_tie : effect_chain_t :=
  (effect_chain_add (effect_chain_add effect_chain_create effect_eqA).2
    effect_eqB).2

/-- Qsort realisation that reverses the pair A, B and insertion-sorts
everything else; it satisfies the full qsort contract because A and B
compare equal under effect_compare. -/
def sorter_swap : List effect_t -> List effect_t := fun l =>
  if l = [effect_eqA, effect_eqB] then [effect_eqB, effect_eqA]
  else sorter_insertion l

theorem sorter_swap_ok : SorterOK sorter_swap := by
  intro l
  by_cases h : l = [effect_eqA, effect_eqB]
  · subst h
    rw [sorter_swap, if_pos rfl]
    exact ⟨by decide, by decide⟩
  · rw [sorter_swap, if_neg h]
    exact sorter_insertion_ok l

/-- C5 counterexample: the claim says entries with equal priority tier keep
their original insertion order after effect_chain_sort. The two effects of
chain_tie share the Filter tier and were inserted in the order A, B, yet
sorter_swap is a legal qsort outcome (sorter_swap_ok: it emits a permutation
that is ascending for effect_compare on every input) and sorting with it
yields B, A. The output below is a permutation of the input, ascending for
effect_compare, and still differs from the insertion order, so the code
gives no stable-order guarantee. -/
theorem effect_chain_sort_tie_not_preserved :
    (effect_chain_sort sorter_swap chain_tie).effects =
        [effect_eqB, effect_eqA]
      ∧ chain_tie.effects = [effect_eqA, effect_eqB]
      ∧ effect_eqA.priority = effect_eqB.priority
      ∧ List.Pairwise effect_le [effect_eqB, effect_eqA]
      ∧ ([effect_eqB, effect_eqA] : List effect_t) ≠
          [effect_eqA, effect_eqB] := by
  refine ⟨?_, by decide, by decide, by decide, by decide⟩
  decide

/-- C6 (amended): a successful effect_chain_add always clears the sorted
flag, even when the insertion would preserve order; a successful
effect_chain_remove leaves the sorted flag unchanged (the source never
touches it on removal; shifting entries down preserves relative order, so a
truthful flag stays truthful). -/
theorem chain_add_remove_sorted_flag :
    (∀ (chain : effect_chain_t) (e : effect_t),
      chain.effects.length < MAX_EFFECTS_CHAIN →
      0 ≤ (effect_chain_add chain e).1
        ∧ (effect_chain_add chain e).2.sorted = false)
    ∧ (∀ (chain : effect_chain_t) (index : Int),
      0 ≤ index → index < (chain.effects.length : Int) →
      (effect_chain_remove chain index).1 = true
        ∧ (effect_chain_remove chain index).2.sorted = chain.sorted) := by
  constructor
  · intro chain e h
    rw [effect_chain_add, if_neg (by omega)]
    exact ⟨Int.natCast_nonneg _, rfl⟩
  · intro chain index h1 h2
    rw [effect_chain_remove, if_neg (by omega)]
    exact ⟨rfl, rfl⟩

/-- Sorted one-entry chain used for the C6 counterexample. -/
def chain_sorted_one : effect_chain_t :=
  { effect_chain_create with effects := [effect_fl], sorted := true }

/-- C6 counterexample: the claim says the sorted flag is false after every
successful removal, but effect_chain_remove never writes the flag: removing
index 0 from a chain whose flag is true succeeds and leaves the flag true. -/
theorem effect_chain_remove_keeps_sorted_flag :
    (effect_chain_remove chain_sorted_one 0).1 = true
      ∧ (effect_chain_remove chain_sorted_one 0).2.sorted = true := by
  decide

/-- Witness for chain_add_remove_sorted_flag at concrete inputs. -/
theorem chain_add_remove_sorted_flag_witness :
    (0 ≤ (effect_chain_add effect_chain_create effect_fl).1
      ∧ (effect_chain_add effect_chain_create effect_fl).2.sorted = false)
    ∧ ((effect_chain_remove chain_sorted_one 0).1 = true
      ∧ (effect_chain_remove chain_sorted_one 0).2.sorted =
          chain_sorted_one.sorted) :=
  ⟨chain_add_remove_sorted_flag.1 effect_chain_create effect_fl (by decide),
   chain_add_remove_sorted_flag.2 chain_sorted_one 0 (by decide) (by decide)⟩

/-- Byte length width*height*4 that the processing loop passes to memcpy for
a frame (lines 239-240 and 288-289 of src/effects/effects_engine.c). -/
def frame_byte_len (f : video_frame_t) : ℕ := (f.width * f.height * 4).toNat

/-- Model of memcpy(dst, src, n) over byte buffers: the first n bytes of dst
are replaced by the first n bytes of src. -/
def memcpy_bytes (dst src : List Byte) (n : ℕ) : List Byte :=
  src.take n ++ dst.drop n

/-- Block size of the pool the effects engine creates for itself:
1920 * 1080 * 4 bytes, one full-HD RGBA frame (line 28 of
src/effects/effects_engine.c, memory_pool_create(1920 * 1080 * 4, 8)). -/
def ENGINE_POOL_BLOCK_SIZE : ℕ := 1920 * 1080 * 4

/-- Activation guard of the processing loop (lines 230-235 of
src/effects/effects_engine.c): an effect is applied when it is enabled and
the timestamp is neither before start_time nor after end_time. -/
def effect_active (e : effect_t) (t : ℚ) : Bool :=
  e.enabled && !(decide (t < e.start_time) || decide (e.end_time < t))

/-- Placeholder frame used to model dereferencing a temp-frame pointer; the
processing paths proved about never reach it with the placeholder value. -/
def dummy_frame : video_frame_t :=
  { data := [], width := 0, height := 0, stride := 0, format := 0,
    timestamp := 0, frame_number := 0 }

/-- Model of allocate_temp_frames from src/effects/effects_engine.c: early
success when already allocated, otherwise two pool allocations; both must
succeed, and the two temp frames are then set up as RGBA frames of the given
dimensions. The malloc of the two frame structs is assumed to succeed; the
timestamp and frame_number fields are uninitialised in C and modelled as 0
(the loop overwrites them before any use). -/
def allocate_temp_frames (chain : effect_chain_t) (width height : Int) :
    Bool × effect_chain_t :=
  match chain.memory_pool with
  | none => (false, chain)
  | some pool =>
      if chain.temp_frames_allocated then (true, chain)
      else
        match memory_pool_alloc pool with
        | (none, pool1) => (false, { chain with memory_pool := some pool1 })
        | (some d1, pool1) =>
            match memory_pool_alloc pool1 with
            | (none, pool2) =>
                (false, { chain with memory_pool := some pool2 })
            | (some d2, pool2) =>
                (true,
                 { chain with
                     memory_pool := some pool2,
                     temp_frame_1 := some
                       { data := d1, width := width, height := height,
                         stride := width * 4, format := 1, timestamp := 0,
                         frame_number := 0 },
                     temp_frame_2 := some
                       { data := d2, width := width, height := height,
                         stride := width * 4, format := 1, timestamp := 0,
                         frame_number := 0 },
                     temp_frames_allocated := true })

/-- Which buffer the current_frame pointer of the processing loop points at:
the frame of the caller, or one of the two scratch temp frames. -/
inductive cur_sel where
  | caller
  | temp1
  | temp2
deriving DecidableEq

/-- State of the processing loop of effects_process_frame_chain: the three
frames the loop can address, the current_frame selector, which temp frame
the temp_frame pointer designates next, the effects dispatched so far, and
the byte lengths of every scratch-buffer access performed so far (memcpy
into a temp frame, filter extent on a temp frame, final copy-back read). -/
structure pass_state where
  caller : video_frame_t
  t1 : video_frame_t
  t2 : video_frame_t
  cur : cur_sel
  next_is_t1 : Bool
  applied : List effect_t
  spans : List ℕ

/-- Frame currently designated by the current_frame pointer. -/
def cur_frame (s : pass_state) : video_frame_t :=
  match s.cur with
  | .caller => s.caller
  | .temp1 => s.t1
  | .temp2 => s.t2

/-- Writes back through the current_frame pointer. -/
def set_cur (s : pass_state) (f : video_frame_t) : pass_state :=
  match s.cur with
  | .caller => { s with caller := f }
  | .temp1 => { s with t1 := f }
  | .temp2 => { s with t2 := f }

/-- Copy step of the loop (lines 238-243 of src/effects/effects_engine.c):
memcpy the current frame data into the temp frame designated by temp_frame,
copy timestamp and frame_number across, and make that temp frame current. -/
def copy_to_temp (s : pass_state) : pass_state :=
  let src := cur_frame s
  let n := frame_byte_len src
  if s.next_is_t1 then
    { s with
        t1 := { s.t1 with data := memcpy_bytes s.t1.data src.data n,
                          timestamp := src.timestamp,
                          frame_number := src.frame_number },
        cur := .temp1,
        spans := s.spans ++ [n] }
  else
    { s with
        t2 := { s.t2 with data := memcpy_bytes s.t2.data src.data n,
                          timestamp := src.timestamp,
                          frame_number := src.frame_number },
        cur := .temp2,
        spans := s.spans ++ [n] }

/-- One iteration of the processing loop of effects_process_frame_chain at
loop index i: skip the effect when the activation guard fails; otherwise
copy to the next temp frame when i > 0, dispatch the effect through the
filter library on the current frame (the apply parameter models the switch
on effect type at lines 247-276), record the scratch access extent when the
dispatch target is a temp frame, and advance the temp_frame pointer. -/
def step_effect (apply : effect_t → video_frame_t → video_frame_t) (t : ℚ)
    (i : ℕ) (e : effect_t) (s : pass_state) : pass_state :=
  if effect_active e t = false then s
  else
    let s1 := if 0 < i then copy_to_temp s else s
    let f := cur_frame s1
    let s2 := set_cur s1 (apply e f)
    { s2 with
        next_is_t1 := !s1.next_is_t1,
        applied := s2.applied ++ [e],
        spans := s2.spans ++
          (if s1.cur = cur_sel.caller then [] else [frame_byte_len f]) }

/-- The processing loop over the sorted effect list, starting at index i. -/
def run_effects (apply : effect_t → video_frame_t → video_frame_t) (t : ℚ) :
    ℕ → List effect_t → pass_state → pass_state
  | _, [], s => s
  | i, e :: rest, s =>
      run_effects apply t (i + 1) rest (step_effect apply t i e s)

/-- Result of one effects_process_frame_chain call: the returned bool, the
chain and frame after the call, plus two instrumentation fields, the list of
effects that were dispatched and the byte extents of every scratch-buffer
access. -/
structure chain_pass_result where
  ok : Bool
  chain : Option effect_chain_t
  frame : Option video_frame_t
  applied : List effect_t
  scratch_spans : List ℕ

/-- Model of effects_process_frame_chain from src/effects/effects_engine.c,
parameterised by the qsort realisation (sorter) and by the filter-library
dispatch (apply). Mirrors the source: NULL chain, NULL frame or an empty
chain return true at once with nothing touched; the chain is sorted if its
flag is clear; scratch-buffer acquisition failure returns false with the
frame untouched; otherwise the loop runs and the final result is copied
back into the frame of the caller when the current buffer is a temp. -/
def effects_process_frame_chain (sorter : List effect_t → List effect_t)
    (apply : effect_t → video_frame_t → video_frame_t)
    (chain? : Option effect_chain_t) (frame? : Option video_frame_t)
    (timestamp : ℚ) : chain_pass_result :=
  match chain?, frame? with
  | none, _ => { ok := true, chain := chain?, frame := frame?,
                 applied := [], scratch_spans := [] }
  | some _, none => { ok := true, chain := chain?, frame := frame?,
                      applied := [], scratch_spans := [] }
  | some chain, some frame =>
      if chain.effects.length = 0 then
        { ok := true, chain := some chain, frame := some frame,
          applied := [], scratch_spans := [] }
      else
        let chain1 := if chain.sorted then chain
                      else effect_chain_sort sorter chain
        match allocate_temp_frames chain1 frame.width frame.height with
        | (false, chain2) =>
            { ok := false, chain := some chain2, frame := some frame,
              applied := [], scratch_spans := [] }
        | (true, chain2) =>
            let s0 : pass_state :=
              { caller := frame,
                t1 := chain2.temp_frame_1.getD dummy_frame,
                t2 := chain2.temp_frame_2.getD dummy_frame,
                cur := .caller,
                next_is_t1 := true,
                applied := [],
                spans := [] }
            let s := run_effects apply timestamp 0 chain1.effects s0
            let chain3 := { chain2 with temp_frame_1 := some s.t1,
                                        temp_frame_2 := some s.t2 }
            { ok := true,
              chain := some chain3,
              frame := some
                (if s.cur = cur_sel.caller then s.caller
                 else
                  { s.caller with
                      data := memcpy_bytes s.caller.data (cur_frame s).data
                        (frame_byte_len s.caller) }),
              applied := s.applied,
              scratch_spans :=
                s.spans ++
                  (if s.cur = cur_sel.caller then []
                   else [frame_byte_len s.caller]) }

/-- Concrete 1 by 1 RGBA frame used by several witnesses. -/
def frame_ex : video_frame_t :=
  { data := [10, 20, 30, 40], width := 1, height := 1, stride := 4,
    format := 1, timestamp := 0, frame_number := 0 }

/-- C1 (amended): a call of effects_process_frame_chain with a NULL chain or
a NULL frame returns true, the success result (the source treats it as
having no effects to apply), and neither the chain, the frame, nor any
buffer is touched; the claim is right that the frame of the caller is not
mutated, but wrong that the call reports a failure result. -/
theorem effects_process_null_spec
    (sorter : List effect_t → List effect_t)
    (apply : effect_t → video_frame_t → video_frame_t)
    (chain : effect_chain_t) (frame? : Option video_frame_t) (t : ℚ) :
    (effects_process_frame_chain sorter apply none frame? t =
      { ok := true, chain := none, frame := frame?,
        applied := [], scratch_spans := [] })
    ∧ (effects_process_frame_chain sorter apply (some chain) none t =
      { ok := true, chain := some chain, frame := none,
        applied := [], scratch_spans := [] }) :=
  ⟨rfl, rfl⟩

/-- C1 counterexample: the claim says the call with a NULL chain fails, but
on a NULL chain (and likewise a NULL frame) the source returns true, the
same success result an effect-free pass returns, with the frame untouched. -/
theorem effects_process_null_chain_returns_true :
    (effects_process_frame_chain sorter_insertion (fun _ f => f)
        none (some frame_ex) 0).ok = true
    ∧ (effects_process_frame_chain sorter_insertion (fun _ f => f)
        (some effect_chain_create) none 0).ok = true :=
  ⟨rfl, rfl⟩

/-- C2: a chain holding zero effects passes any frame through with the
success result and without touching one byte of the frame. -/
theorem effects_process_empty_chain
    (sorter : List effect_t → List effect_t)
    (apply : effect_t → video_frame_t → video_frame_t)
    (chain : effect_chain_t) (frame : video_frame_t) (t : ℚ)
    (h : chain.effects = []) :
    effects_process_frame_chain sorter apply (some chain) (some frame) t =
      { ok := true, chain := some chain, frame := some frame,
        applied := [], scratch_spans := [] } := by
  simp only [effects_process_frame_chain, h]
  rfl

/-- Witness for effects_process_empty_chain on a concrete frame. -/
theorem effects_process_empty_chain_witness :
    effects_process_frame_chain sorter_insertion (fun _ f => f)
        (some effect_chain_create) (some frame_ex) 0 =
      { ok := true, chain := some effect_chain_create,
        frame := some frame_ex, applied := [], scratch_spans := [] } :=
  effects_process_empty_chain sorter_insertion (fun _ f => f)
    effect_chain_create frame_ex 0 rfl

theorem copy_to_temp_applied (s : pass_state) :
    (copy_to_temp s).applied = s.applied := by
  rw [copy_to_temp]
  by_cases h : s.next_is_t1
  · rw [if_pos h]
  · rw [if_neg h]

theorem set_cur_applied (s : pass_state) (f : video_frame_t) :
    (set_cur s f).applied = s.applied := by
  cases hc : s.cur <;> simp [set_cur, hc]

/-- The loop body extends the dispatched-effect list by the effect exactly
when the activation guard passes. -/
theorem step_effect_applied
    (apply : effect_t → video_frame_t → video_frame_t) (t : ℚ) (i : ℕ)
    (e : effect_t) (s : pass_state) :
    (step_effect apply t i e s).applied =
      s.applied ++ (if effect_active e t then [e] else []) := by
  rw [step_effect]
  cases h : effect_active e t with
  | false => rw [if_pos rfl, if_neg (by simp)]; simp
  | true =>
      rw [if_neg (by simp)]
      simp only [if_pos rfl]
      rw [set_cur_applied]
      by_cases hi : 0 < i
      · rw [if_pos hi, copy_to_temp_applied]; simp
      · rw [if_neg hi]; simp

/-- The loop dispatches exactly the effects that pass the activation guard,
in list order. -/
theorem run_effects_applied
    (apply : effect_t → video_frame_t → video_frame_t) (t : ℚ)
    (l : List effect_t) :
    ∀ (i : ℕ) (s : pass_state),
      (run_effects apply t i l s).applied =
        s.applied ++ l.filter (fun e => effect_active e t) := by
  induction l with
  | nil => intro i s; simp [run_effects]
  | cons e rest ih =>
      intro i s
      rw [run_effects, ih, step_effect_applied]
      cases h : effect_active e t <;> simp [List.filter_cons, h]

theorem effect_chain_sort_same_pool
    (sorter : List effect_t → List effect_t) (chain : effect_chain_t) :
    (effect_chain_sort sorter chain).memory_pool = chain.memory_pool
      ∧ (effect_chain_sort sorter chain).temp_frames_allocated =
          chain.temp_frames_allocated := by
  rw [effect_chain_sort]
  by_cases h1 : chain.effects.length ≤ 1
  · rw [if_pos h1]; exact ⟨rfl, rfl⟩
  · rw [if_neg h1]
    by_cases h2 : chain.sorted
    · rw [if_pos h2]; exact ⟨rfl, rfl⟩
    · rw [if_neg h2]; exact ⟨rfl, rfl⟩

/-- The sorted entry list after effect_chain_sort is a permutation of the
previous one, for any chain and any legal qsort realisation. -/
theorem effect_chain_sort_perm
    (sorter : List effect_t → List effect_t) (hok : SorterOK sorter)
    (chain : effect_chain_t) :
    (effect_chain_sort sorter chain).effects.Perm chain.effects := by
  rw [effect_chain_sort]
  by_cases h1 : chain.effects.length ≤ 1
  · rw [if_pos h1]
  · rw [if_neg h1]
    by_cases h2 : chain.sorted
    · rw [if_pos h2]
    · rw [if_neg h2]; exact (hok chain.effects).1

/-- Instant success of allocate_temp_frames when the scratch buffers are
already allocated and the chain has a pool. -/
theorem allocate_temp_frames_already (chain : effect_chain_t)
    (width height : Int) (pool : memory_pool_t)
    (hp : chain.memory_pool = some pool)
    (ht : chain.temp_frames_allocated = true) :
    allocate_temp_frames chain width height = (true, chain) := by
  rw [allocate_temp_frames, hp]
  simp [ht]

/-- C3 (amended): effects_process_frame_chain dispatches an effect of the
chain exactly when it is enabled and the timestamp t satisfies
activeFrom <= t <= activeUntil; the activation window is closed at both
ends, so an enabled effect whose end time equals t is applied, not skipped.
Stated for a chain whose scratch buffers are already acquired (so the pass
cannot abort on allocation) and for any legal qsort realisation: the
dispatched list is a permutation of the guard-passing entries. -/
theorem effects_process_frame_chain_applied
    (sorter : List effect_t → List effect_t) (hok : SorterOK sorter)
    (apply : effect_t → video_frame_t → video_frame_t)
    (chain : effect_chain_t) (frame : video_frame_t) (t : ℚ)
    (pool : memory_pool_t) (hp : chain.memory_pool = some pool)
    (ht : chain.temp_frames_allocated = true) :
    (effects_process_frame_chain sorter apply (some chain) (some frame)
        t).applied.Perm
      (chain.effects.filter fun e => effect_active e t) := by
  by_cases hlen : chain.effects.length = 0
  · have he : chain.effects = [] := List.length_eq_zero.mp hlen
    simp only [effects_process_frame_chain]
    rw [if_pos hlen, he]
    simp
  · simp only [effects_process_frame_chain]
    rw [if_neg hlen]
    have hpool1 : (if chain.sorted then chain
        else effect_chain_sort sorter chain).memory_pool = some pool := by
      by_cases h2 : chain.sorted
      · rw [if_pos h2]; exact hp
      · rw [if_neg h2, (effect_chain_sort_same_pool sorter chain).1]
        exact hp
    have hta1 : (if chain.sorted then chain
        else effect_chain_sort sorter chain).temp_frames_allocated = true := by
      by_cases h2 : chain.sorted
      · rw [if_pos h2]; exact ht
      · rw [if_neg h2, (effect_chain_sort_same_pool sorter chain).2]
        exact ht
    have hperm1 : (if chain.sorted then chain
        else effect_chain_sort sorter chain).effects.Perm chain.effects := by
      by_cases h2 : chain.sorted
      · rw [if_pos h2]
      · rw [if_neg h2]; exact effect_chain_sort_perm sorter hok chain
    rw [allocate_temp_frames_already _ frame.width frame.height pool
      hpool1 hta1]
    dsimp only
    rw [run_effects_applied]
    simpa using hperm1.filter _

/-- Concrete 1 by 1 RGBA scratch frame with a zeroed 4-byte buffer. -/
def temp_frame_ex : video_frame_t :=
  { data := List.replicate 4 (0 : Byte), width := 1, height := 1,
    stride := 4, format := 1, timestamp := 0, frame_number := 0 }

/-- Enabled Filter-tier effect with activation window start 0, end 5. -/
def effect_window : effect_t :=
  { mk_effect .filter EFFECT_PRIORITY_FILTER with end_time := 5 }

/-- Chain holding effect_window, with pool and scratch buffers in place. -/
def chain_window : effect_chain_t :=
  { effects := [effect_window], sorted := true, memory_pool := some pool_ex,
    temp_frame_1 := some temp_frame_ex, temp_frame_2 := some temp_frame_ex,
    temp_frames_allocated := true }

/-- C3 counterexample: the claim says the activation interval is half-open,
so an enabled effect whose end time equals the timestamp must be skipped;
but the source guard skips only when timestamp < start_time or
timestamp > end_time, so at timestamp 5 the effect with end time 5 is
dispatched. -/
theorem effect_applied_at_end_time :
    effect_window.enabled = true ∧ effect_window.end_time = 5 ∧
    (effects_process_frame_chain sorter_insertion (fun _ f => f)
        (some chain_window) (some frame_ex) 5).applied = [effect_window] := by
  refine ⟨rfl, rfl, ?_⟩
  decide

/-- Witness for effects_process_frame_chain_applied at concrete inputs. -/
theorem effects_process_frame_chain_applied_witness :
    (effects_process_frame_chain sorter_insertion (fun _ f => f)
        (some chain_window) (some frame_ex) 5).applied.Perm
      (chain_window.effects.filter fun e => effect_active e 5) :=
  effects_process_frame_chain_applied sorter_insertion sorter_insertion_ok
    (fun _ f => f) chain_window frame_ex 5 pool_ex rfl rfl

/-- Dimension metadata of a frame. -/
def frame_dims (f : video_frame_t) (W H : Int) : Prop :=
  f.width = W ∧ f.height = H

/-- All three loop buffers carry the dimensions W, H. -/
def state_dims (s : pass_state) (W H : Int) : Prop :=
  frame_dims s.caller W H ∧ frame_dims s.t1 W H ∧ frame_dims s.t2 W H

theorem frame_byte_len_of_dims (f : video_frame_t) (W H : Int)
    (h : frame_dims f W H) : frame_byte_len f = (W * H * 4).toNat := by
  rw [frame_byte_len, h.1, h.2]

theorem cur_frame_dims (s : pass_state) (W H : Int)
    (hs : state_dims s W H) : frame_dims (cur_frame s) W H := by
  rcases hs with ⟨h1, h2, h3⟩
  cases hc : s.cur
  · simp only [cur_frame, hc]; exact h1
  · simp only [cur_frame, hc]; exact h2
  · simp only [cur_frame, hc]; exact h3

theorem copy_to_temp_state (s : pass_state) (W H : Int)
    (hs : state_dims s W H) :
    state_dims (copy_to_temp s) W H
      ∧ (copy_to_temp s).spans = s.spans ++ [(W * H * 4).toNat] := by
  have hcf := cur_frame_dims s W H hs
  have hn := frame_byte_len_of_dims _ W H hcf
  rcases hs with ⟨h1, h2, h3⟩
  rw [copy_to_temp]
  by_cases hb : s.next_is_t1
  · rw [if_pos hb]
    exact ⟨⟨h1, h2, h3⟩, by rw [hn]⟩
  · rw [if_neg hb]
    exact ⟨⟨h1, h2, h3⟩, by rw [hn]⟩

theorem set_cur_state (s : pass_state) (f : video_frame_t) (W H : Int)
    (hs : state_dims s W H) (hf : frame_dims f W H) :
    state_dims (set_cur s f) W H ∧ (set_cur s f).spans = s.spans := by
  rcases hs with ⟨h1, h2, h3⟩
  cases hc : s.cur
  · simp only [set_cur, hc]; exact ⟨⟨hf, h2, h3⟩, trivial⟩
  · simp only [set_cur, hc]; exact ⟨⟨h1, hf, h3⟩, trivial⟩
  · simp only [set_cur, hc]; exact ⟨⟨h1, h2, hf⟩, trivial⟩

theorem step_effect_state
    (apply : effect_t → video_frame_t → video_frame_t) (t : ℚ) (i : ℕ)
    (e : effect_t) (s : pass_state) (W H : Int)
    (hdim : ∀ e f, (apply e f).width = f.width
      ∧ (apply e f).height = f.height)
    (hs : state_dims s W H) :
    state_dims (step_effect apply t i e s) W H
      ∧ ∀ n ∈ (step_effect apply t i e s).spans,
          n ∈ s.spans ∨ n = (W * H * 4).toNat := by
  rw [step_effect]
  by_cases ha : effect_active e t = false
  · rw [if_pos ha]
    exact ⟨hs, fun n hn => Or.inl hn⟩
  · rw [if_neg ha]
    have hstep1 : state_dims (if 0 < i then copy_to_temp s else s) W H
        ∧ ∀ n ∈ (if 0 < i then copy_to_temp s else s).spans,
            n ∈ s.spans ∨ n = (W * H * 4).toNat := by
      by_cases hi : 0 < i
      · rw [if_pos hi]
        have hcopy := copy_to_temp_state s W H hs
        refine ⟨hcopy.1, ?_⟩
        rw [hcopy.2]
        intro n hn
        rcases List.mem_append.mp hn with h | h
        · exact Or.inl h
        · right; simpa using h
      · rw [if_neg hi]
        exact ⟨hs, fun n hn => Or.inl hn⟩
    have hf := cur_frame_dims _ W H hstep1.1
    have happf : frame_dims
        (apply e (cur_frame (if 0 < i then copy_to_temp s else s))) W H := by
      refine ⟨?_, ?_⟩
      · rw [(hdim e _).1]; exact hf.1
      · rw [(hdim e _).2]; exact hf.2
    have hs2 := set_cur_state _ _ W H hstep1.1 happf
    refine ⟨⟨hs2.1.1, hs2.1.2.1, hs2.1.2.2⟩, ?_⟩
    intro n hn
    have hn2 : n ∈ (set_cur (if 0 < i then copy_to_temp s else s)
          (apply e (cur_frame (if 0 < i then copy_to_temp s else s)))).spans
        ∨ n = frame_byte_len
            (cur_frame (if 0 < i then copy_to_temp s else s)) := by
      rcases List.mem_append.mp hn with h | h
      · exact Or.inl h
      · right
        by_cases hc : (if 0 < i then copy_to_temp s else s).cur =
            cur_sel.caller
        · rw [if_pos hc] at h; exact absurd h (by simp)
        · rw [if_neg hc] at h; simpa using h
    rcases hn2 with h | h
    · rw [hs2.2] at h
      exact hstep1.2 n h
    · right
      rw [h, frame_byte_len_of_dims _ W H hf]

theorem run_effects_state
    (apply : effect_t → video_frame_t → video_frame_t) (t : ℚ)
    (hdim : ∀ e f, (apply e f).width = f.width
      ∧ (apply e f).height = f.height)
    (l : List effect_t) :
    ∀ (i : ℕ) (s : pass_state) (W H : Int), state_dims s W H →
      state_dims (run_effects apply t i l s) W H
        ∧ ∀ n ∈ (run_effects apply t i l s).spans,
            n ∈ s.spans ∨ n = (W * H * 4).toNat := by
  induction l with
  | nil => intro i s W H hs; exact ⟨hs, fun n hn => Or.inl hn⟩
  | cons e rest ih =>
      intro i s W H hs
      rw [run_effects]
      have hstep := step_effect_state apply t i e s W H hdim hs
      have hrest := ih (i + 1) (step_effect apply t i e s) W H hstep.1
      refine ⟨hrest.1, ?_⟩
      intro n hn
      rcases hrest.2 n hn with h | h
      · exact hstep.2 n h
      · exact Or.inr h

theorem effect_chain_sort_same_temps
    (sorter : List effect_t → List effect_t) (chain : effect_chain_t) :
    (effect_chain_sort sorter chain).temp_frame_1 = chain.temp_frame_1
      ∧ (effect_chain_sort sorter chain).temp_frame_2 = chain.temp_frame_2 := by
  rw [effect_chain_sort]
  by_cases h1 : chain.effects.length ≤ 1
  · rw [if_pos h1]; exact ⟨rfl, rfl⟩
  · rw [if_neg h1]
    by_cases h2 : chain.sorted
    · rw [if_pos h2]; exact ⟨rfl, rfl⟩
    · rw [if_neg h2]; exact ⟨rfl, rfl⟩

theorem chain1_eq (sorter : List effect_t → List effect_t)
    (chain : effect_chain_t) :
    (if chain.sorted = true then chain else effect_chain_sort sorter chain)
      = effect_chain_sort sorter chain := by
  by_cases h : chain.sorted
  · rw [if_pos h, effect_chain_sort]
    by_cases h1 : chain.effects.length ≤ 1
    · rw [if_pos h1]
    · rw [if_neg h1, if_pos h]
  · rw [if_neg h]

/-- Frame metadata claiming full-HD-plus dimensions with no attached buffer
bytes; width times height times 4 exceeds the engine pool block size. -/
def frame_big : video_frame_t :=
  { data := [], width := 1921, height := 1081, stride := 1921 * 4,
    format := 1, timestamp := 0, frame_number := 0 }

/-- Chain of two enabled always-active effects whose scratch buffers carry
the oversized dimensions of frame_big. -/
def chain_big : effect_chain_t :=
  { effects := [effect_window, mk_effect .filter EFFECT_PRIORITY_FILTER],
    sorted := true, memory_pool := some pool_ex,
    temp_frame_1 := some frame_big, temp_frame_2 := some frame_big,
    temp_frames_allocated := true }

/-- C10: every scratch-buffer access extent of an
effects_process_frame_chain pass (the memcpy into a temp frame, the filter
extent over a temp frame, the final copy-back read) is bounded by the
engine pool block size 1920 * 1080 * 4 whenever the frame satisfies
width * height * 4 <= 1920 * 1080 * 4 and the scratch buffers were sized to
the same dimensions; and the pipeline itself never checks the frame size
against the block size: a pass over a 1921 by 1081 frame still succeeds and
performs a scratch access larger than the block, so the size bound is a
necessary precondition supplied by the caller, not enforced by the code. -/
theorem effects_process_scratch_spans_spec :
    (∀ (sorter : List effect_t → List effect_t)
       (apply : effect_t → video_frame_t → video_frame_t)
       (chain : effect_chain_t) (frame : video_frame_t) (t : ℚ)
       (pool : memory_pool_t),
      (∀ e f, (apply e f).width = f.width
        ∧ (apply e f).height = f.height) →
      chain.memory_pool = some pool →
      chain.temp_frames_allocated = true →
      (∃ f1, chain.temp_frame_1 = some f1 ∧ f1.width = frame.width
        ∧ f1.height = frame.height) →
      (∃ f2, chain.temp_frame_2 = some f2 ∧ f2.width = frame.width
        ∧ f2.height = frame.height) →
      frame_byte_len frame ≤ ENGINE_POOL_BLOCK_SIZE →
      ∀ n ∈ (effects_process_frame_chain sorter apply (some chain)
          (some frame) t).scratch_spans, n ≤ ENGINE_POOL_BLOCK_SIZE)
    ∧ ((effects_process_frame_chain sorter_insertion (fun _ f => f)
          (some chain_big) (some frame_big) 0).ok = true
       ∧ ENGINE_POOL_BLOCK_SIZE < frame_byte_len frame_big
       ∧ frame_byte_len frame_big ∈
           (effects_process_frame_chain sorter_insertion (fun _ f => f)
             (some chain_big) (some frame_big) 0).scratch_spans) := by
  constructor
  · intro sorter apply chain frame t pool hdim hp ht ht1 ht2 hbound n hn
    by_cases hlen : chain.effects.length = 0
    · simp only [effects_process_frame_chain] at hn
      rw [if_pos hlen] at hn
      simp at hn
    · simp only [effects_process_frame_chain] at hn
      rw [if_neg hlen, chain1_eq sorter chain] at hn
      obtain ⟨f1, hf1, hw1, hh1⟩ := ht1
      obtain ⟨f2, hf2, hw2, hh2⟩ := ht2
      have hpool1 : (effect_chain_sort sorter chain).memory_pool =
          some pool := by
        rw [(effect_chain_sort_same_pool sorter chain).1]; exact hp
      have hta1 : (effect_chain_sort sorter chain).temp_frames_allocated =
          true := by
        rw [(effect_chain_sort_same_pool sorter chain).2]; exact ht
      have hgd1 : (effect_chain_sort sorter chain).temp_frame_1.getD
          dummy_frame = f1 := by
        rw [(effect_chain_sort_same_temps sorter chain).1, hf1]; rfl
      have hgd2 : (effect_chain_sort sorter chain).temp_frame_2.getD
          dummy_frame = f2 := by
        rw [(effect_chain_sort_same_temps sorter chain).2, hf2]; rfl
      rw [allocate_temp_frames_already _ frame.width frame.height pool
        hpool1 hta1] at hn
      dsimp only at hn
      generalize hg : effect_chain_sort sorter chain = chain1
        at hn hgd1 hgd2
      have hs0 : state_dims
          { caller := frame,
            t1 := chain1.temp_frame_1.getD dummy_frame,
            t2 := chain1.temp_frame_2.getD dummy_frame,
            cur := cur_sel.caller, next_is_t1 := true, applied := [],
            spans := [] } frame.width frame.height := by
        refine ⟨⟨rfl, rfl⟩, ?_, ?_⟩
        · rw [hgd1]; exact ⟨hw1, hh1⟩
        · rw [hgd2]; exact ⟨hw2, hh2⟩
      have hrun := run_effects_state apply t hdim chain1.effects 0 _
        frame.width frame.height hs0
      rcases List.mem_append.mp hn with hmem | hmem
      · rcases hrun.2 n hmem with h | h
        · exact absurd h (by simp)
        · rw [h]; exact hbound
      · split at hmem
        · exact absurd hmem (by simp)
        · have hone : n = frame_byte_len (run_effects apply t 0
              chain1.effects
              { caller := frame,
                t1 := chain1.temp_frame_1.getD dummy_frame,
                t2 := chain1.temp_frame_2.getD dummy_frame,
                cur := cur_sel.caller, next_is_t1 := true, applied := [],
                spans := [] }).caller := by simpa using hmem
          rw [hone, frame_byte_len_of_dims _ frame.width frame.height
            hrun.1.1]
          exact hbound
  · refine ⟨by decide, by decide, by decide⟩

/-- Chain of two enabled always-active effects over 1 by 1 scratch frames. -/
def chain_two : effect_chain_t :=
  { effects := [effect_window, mk_effect .filter EFFECT_PRIORITY_FILTER],
    sorted := true, memory_pool := some pool_ex,
    temp_frame_1 := some temp_frame_ex, temp_frame_2 := some temp_frame_ex,
    temp_frames_allocated := true }

/-- Witness for effects_process_scratch_spans_spec at a concrete in-bounds
pass: the span 4 of the 1 by 1 frame pass is within the pool block. -/
theorem effects_process_scratch_spans_spec_witness :
    (4 : ℕ) ≤ ENGINE_POOL_BLOCK_SIZE :=
  effects_process_scratch_spans_spec.1 sorter_insertion (fun _ f => f)
    chain_two frame_ex 0 pool_ex (fun _ _ => ⟨rfl, rfl⟩) rfl rfl
    ⟨temp_frame_ex, rfl, rfl, rfl⟩ ⟨temp_frame_ex, rfl, rfl, rfl⟩
    (by decide) 4 (by decide)

/-- Model of clamp_uint8 from src/filters/color_correction.c: clamp to
[0, 255] and truncate to a byte (the uint8_t cast truncates toward zero,
which on the remaining nonnegative range is the floor). -/
def clamp_uint8 (v : ℚ) : Byte :=
  if v < 0 then 0
  else if h2 : 255 < v then 255
  else ⟨(⌊v⌋).toNat, by
    have h4 : ((⌊v⌋ : ℤ) : ℚ) ≤ 255 :=
      le_trans (Int.floor_le v) (le_of_not_lt h2)
    have h5 : ⌊v⌋ ≤ (255 : ℤ) := by exact_mod_cast h4
    omega⟩

/-- Truncation toward zero of a rational, models the C float-to-int cast. -/
def qtrunc (q : ℚ) : ℤ := if q < 0 then -(⌊-q⌋) else ⌊q⌋

/-- Model of fmodf: a - b * trunc(a / b). -/
def qfmod (a b : ℚ) : ℚ := a - b * (qtrunc (a / b))

/-- Model of fminf on the rationals. -/
def qmin (a b : ℚ) : ℚ := if a < b then a else b

/-- Model of fmaxf on the rationals. -/
def qmax (a b : ℚ) : ℚ := if a < b then b else a

/-- Round half to even on the rationals: the integer nearest to y, ties to
the even one. -/
def rne (y : ℚ) : ℤ :=
  if y - ⌊y⌋ < 1/2 then ⌊y⌋
  else if 1/2 < y - ⌊y⌋ then ⌊y⌋ + 1
  else if ⌊y⌋ % 2 = 0 then ⌊y⌋ else ⌊y⌋ + 1

/-- IEEE single-precision rounding of an exact rational: round to nearest
even at 24 significant bits. Every float arithmetic result of the pixel
pipeline passes through this. The values the pipeline reaches on byte
inputs all lie in the normal range of the format; subnormal flush and
overflow are outside the model. -/
def fl32 (x : ℚ) : ℚ :=
  if x = 0 then 0
  else if x < 0 then
    -((rne (-x / 2 ^ (Int.log 2 (-x) - 23)) : ℚ)
      * 2 ^ (Int.log 2 (-x) - 23))
  else (rne (x / 2 ^ (Int.log 2 x - 23)) : ℚ) * 2 ^ (Int.log 2 x - 23)

/-- Model of powf over the rationals. Exact whenever the exponent is an
integer, the only regime a claim evaluates (powf(2, exposure) at
exposure 0); a non-integer exponent would give an irrational power, which
has no exact rational model, and is mapped to the integer power at the
floor of the exponent. -/
def qpowf (x y : ℚ) : ℚ := x ^ ⌊y⌋

/-- Model of rgb_to_hsv from src/filters/color_correction.c. -/
def rgb_to_hsv (r g b : Byte) : ℚ × ℚ × ℚ :=
  let rf : ℚ := fl32 (((r : ℕ) : ℚ) / 255)
  let gf : ℚ := fl32 (((g : ℕ) : ℚ) / 255)
  let bf : ℚ := fl32 (((b : ℕ) : ℚ) / 255)
  let max_val := qmax rf (qmax gf bf)
  let min_val := qmin rf (qmin gf bf)
  let delta := fl32 (max_val - min_val)
  let v := max_val
  let s := if max_val = 0 then 0 else fl32 (delta / max_val)
  let h :=
    if delta = 0 then 0
    else if max_val = rf then
      (if fl32 (60 * fl32 (fl32 (gf - bf) / delta)) < 0 then
        fl32 (fl32 (60 * fl32 (fl32 (gf - bf) / delta)) + 360)
       else fl32 (60 * fl32 (fl32 (gf - bf) / delta)))
    else if max_val = gf then
      fl32 (fl32 (60 * fl32 (fl32 (bf - rf) / delta)) + 120)
    else fl32 (fl32 (60 * fl32 (fl32 (rf - gf) / delta)) + 240)
  (h, s, v)

/-- Model of hsv_to_rgb from src/filters/color_correction.c. -/
def hsv_to_rgb (h s v : ℚ) : Byte × Byte × Byte :=
  if s = 0 then
    (clamp_uint8 (fl32 (v * 255)), clamp_uint8 (fl32 (v * 255)),
     clamp_uint8 (fl32 (v * 255)))
  else
    let h1 := qfmod h 360
    let h2 := if h1 < 0 then fl32 (h1 + 360) else h1
    let hi := qtrunc (fl32 (h2 / 60))
    let f := fl32 (fl32 (h2 / 60) - (hi : ℚ))
    let p := fl32 (v * fl32 (1 - s))
    let q := fl32 (v * fl32 (1 - fl32 (s * f)))
    let t := fl32 (v * fl32 (1 - fl32 (s * fl32 (1 - f))))
    if hi = 0 then
      (clamp_uint8 (fl32 (v * 255)), clamp_uint8 (fl32 (t * 255)),
       clamp_uint8 (fl32 (p * 255)))
    else if hi = 1 then
      (clamp_uint8 (fl32 (q * 255)), clamp_uint8 (fl32 (v * 255)),
       clamp_uint8 (fl32 (p * 255)))
    else if hi = 2 then
      (clamp_uint8 (fl32 (p * 255)), clamp_uint8 (fl32 (v * 255)),
       clamp_uint8 (fl32 (t * 255)))
    else if hi = 3 then
      (clamp_uint8 (fl32 (p * 255)), clamp_uint8 (fl32 (q * 255)),
       clamp_uint8 (fl32 (v * 255)))
    else if hi = 4 then
      (clamp_uint8 (fl32 (t * 255)), clamp_uint8 (fl32 (p * 255)),
       clamp_uint8 (fl32 (v * 255)))
    else
      (clamp_uint8 (fl32 (v * 255)), clamp_uint8 (fl32 (p * 255)),
       clamp_uint8 (fl32 (q * 255)))

/-- Per-pixel transform of filter_color_correction (lines 74-132 of
src/filters/color_correction.c): brightness offset, pivot-0.5 contrast,
gamma curve when gamma is not 1, exposure scale by powf(2, exposure), then
either the HSV hue/saturation path or a direct clamped write-back. The
source computes in float; every arithmetic result is rounded through fl32,
so effects such as the contrast pivot (rf - 0.5f) + 0.5f not round-tripping
are reproduced exactly. The float constants 0.5f, 1.0f and 255.0f are
exactly representable and need no rounding of their own. -/
def cc_pixel (params : color_correction_t) (r g b : Byte) :
    Byte × Byte × Byte :=
  let rf0 : ℚ := fl32 (((r : ℕ) : ℚ) / 255)
  let gf0 : ℚ := fl32 (((g : ℕ) : ℚ) / 255)
  let bf0 : ℚ := fl32 (((b : ℕ) : ℚ) / 255)
  let rf1 := fl32 (rf0 + params.brightness)
  let gf1 := fl32 (gf0 + params.brightness)
  let bf1 := fl32 (bf0 + params.brightness)
  let cfac := fl32 (1 + params.contrast)
  let rf2 := fl32 (fl32 (fl32 (rf1 - 1/2) * cfac) + 1/2)
  let gf2 := fl32 (fl32 (fl32 (gf1 - 1/2) * cfac) + 1/2)
  let bf2 := fl32 (fl32 (fl32 (bf1 - 1/2) * cfac) + 1/2)
  let rf3 := if params.gamma ≠ 1 then
               qpowf (qmax rf2 0) (fl32 (1 / params.gamma))
             else rf2
  let gf3 := if params.gamma ≠ 1 then
               qpowf (qmax gf2 0) (fl32 (1 / params.gamma))
             else gf2
  let bf3 := if params.gamma ≠ 1 then
               qpowf (qmax bf2 0) (fl32 (1 / params.gamma))
             else bf2
  let em := qpowf 2 params.exposure
  let rf4 := fl32 (rf3 * em)
  let gf4 := fl32 (gf3 * em)
  let bf4 := fl32 (bf3 * em)
  if params.saturation ≠ 0 ∨ params.hue ≠ 0 then
    let hsv := rgb_to_hsv (clamp_uint8 (fl32 (rf4 * 255)))
      (clamp_uint8 (fl32 (gf4 * 255))) (clamp_uint8 (fl32 (bf4 * 255)))
    let h2 := fl32 (hsv.1 + params.hue)
    let s2 := qmax 0 (qmin 1 (fl32 (hsv.2.1 * fl32 (1 + params.saturation))))
    hsv_to_rgb h2 s2 hsv.2.2
  else
    (clamp_uint8 (fl32 (rf4 * 255)), clamp_uint8 (fl32 (gf4 * 255)),
     clamp_uint8 (fl32 (bf4 * 255)))

/-- One loop iteration of filter_color_correction at pixel index i: read the
four bytes at offset 4 i, transform the color, write the three color bytes
back and preserve alpha. -/
def cc_write (params : color_correction_t) (i : ℕ) (data : List Byte) :
    List Byte :=
  let idx := i * 4
  let r := data.getD idx 0
  let g := data.getD (idx + 1) 0
  let b := data.getD (idx + 2) 0
  let a := data.getD (idx + 3) 0
  let rgb := cc_pixel params r g b
  ((((data.set idx rgb.1).set (idx + 1) rgb.2.1).set
      (idx + 2) rgb.2.2).set (idx + 3) a)

/-- The pixel loop of filter_color_correction: k pixels starting at index
i. -/
def cc_loop (params : color_correction_t) : ℕ → ℕ → List Byte → List Byte
  | 0, _, data => data
  | k + 1, i, data => cc_loop params k (i + 1) (cc_write params i data)

/-- Model of filter_color_correction from src/filters/color_correction.c.
The NULL frame, NULL data and NULL params guards are absorbed by the model
taking values; the format guard is explicit: any frame whose format is not
RGBA (1) is returned untouched. -/
def filter_color_correction (frame : video_frame_t)
    (params : color_correction_t) : video_frame_t :=
  if frame.format ≠ 1 then frame
  else
    { frame with
        data := cc_loop params ((frame.width * frame.height).toNat) 0
          frame.data }

/-- Identity color-correction parameters: brightness 0, contrast 0,
saturation 0, hue 0, gamma 1, exposure 0. -/
def cc_identity : color_correction_t :=
  { brightness := 0, contrast := 0, saturation := 0, hue := 0, gamma := 1,
    exposure := 0 }

theorem qpowf_two_zero : qpowf 2 0 = 1 := by
  rw [qpowf]
  simp

theorem clamp_uint8_byte (x : Byte) : clamp_uint8 ((x : ℕ) : ℚ) = x := by
  have h0 : ¬(((x : ℕ) : ℚ) < 0) := not_lt.2 (Nat.cast_nonneg _)
  have hx : (x : ℕ) ≤ 255 := Nat.lt_succ_iff.mp x.isLt
  have h1 : ¬((255 : ℚ) < ((x : ℕ) : ℚ)) :=
    not_lt.2 (by exact_mod_cast hx)
  rw [clamp_uint8, if_neg h0, dif_neg h1]
  apply Fin.ext
  show (⌊((x : ℕ) : ℚ)⌋).toNat = (x : ℕ)
  rw [Int.floor_natCast]
  simp

/-- Writing back the byte just read leaves a list unchanged. -/
theorem set_getD (l : List α) (i : ℕ) (d : α) :
    l.set i (l.getD i d) = l := by
  induction l generalizing i with
  | nil => rfl
  | cons a t ih =>
      cases i with
      | zero => simp [List.getD]
      | succ n =>
          rw [List.getD_cons_succ]
          show a :: t.set n (t.getD n d) = a :: t
          rw [ih]

theorem rne_eq_low (y : ℚ) (n : ℤ) (h1 : (n : ℚ) ≤ y)
    (h2 : y < (n : ℚ) + 1/2) : rne y = n := by
  have hf : ⌊y⌋ = n := by
    rw [Int.floor_eq_iff]
    exact ⟨h1, by linarith⟩
  rw [rne, hf, if_pos (by linarith)]

theorem rne_eq_high (y : ℚ) (n m : ℤ) (h1 : (n : ℚ) + 1/2 < y)
    (h2 : y < (n : ℚ) + 1) (hm : n + 1 = m) : rne y = m := by
  have hf : ⌊y⌋ = n := by
    rw [Int.floor_eq_iff]
    exact ⟨by linarith, by linarith⟩
  rw [rne, hf, if_neg (not_lt.2 (by linarith)), if_pos (by linarith), hm]

theorem Int_log_eq_of (x : ℚ) (e : ℤ) (hx : 0 < x) (h1 : (2 : ℚ) ^ e ≤ x)
    (h2 : x < 2 ^ (e + 1)) : Int.log 2 x = e := by
  have ha : e ≤ Int.log 2 x := (Int.zpow_le_iff_le_log (by norm_num) hx).mp h1
  have hb : Int.log 2 x < e + 1 :=
    (Int.lt_zpow_iff_log_lt (by norm_num) hx).mp h2
  omega

/-- Evaluation rule for fl32 at a positive value: with the binade exponent e
and the rounded 24-bit significand n in hand, fl32 x is n scaled back. -/
theorem fl32_eval_pos (x v : ℚ) (e n : ℤ) (hx : 0 < x)
    (h1 : (2 : ℚ) ^ e ≤ x) (h2 : x < 2 ^ (e + 1))
    (hr : rne (x / 2 ^ (e - 23)) = n)
    (hv : (n : ℚ) * 2 ^ (e - 23) = v) : fl32 x = v := by
  rw [fl32, if_neg (ne_of_gt hx), if_neg (not_lt.2 (le_of_lt hx)),
    Int_log_eq_of x e hx h1 h2, hr, hv]

/-- Evaluation rule for fl32 at a negative value. -/
theorem fl32_eval_neg (x v : ℚ) (e n : ℤ) (hx : x < 0)
    (h1 : (2 : ℚ) ^ e ≤ -x) (h2 : -x < 2 ^ (e + 1))
    (hr : rne (-x / 2 ^ (e - 23)) = n)
    (hv : -((n : ℚ) * 2 ^ (e - 23)) = v) : fl32 x = v := by
  rw [fl32, if_neg (ne_of_lt hx), if_pos hx,
    Int_log_eq_of (-x) e (neg_pos.2 hx) h1 h2, hr, hv]

/-- The contrast factor 1.0f + 0.0f is computed exactly. -/
theorem fl32_one : fl32 ((1 : ℚ) + 0) = 1 :=
  fl32_eval_pos (1 + 0) 1 0 8388608 (by norm_num) (by norm_num)
    (by norm_num) (rne_eq_low _ 8388608 (by norm_num) (by norm_num))
    (by norm_num)

/-- Per-pixel transform of filter_black_and_white (lines 23-50 of
src/filters/black_and_white.c): BT.709 luminance, linear blend with the
original channel by intensity, clamp to [0, 1], scale to a byte. The final
uint8_t cast of the source acts on a value already clamped into [0, 255],
where it agrees with clamp_uint8. -/
def bw_pixel (intensity : ℚ) (r g b : Byte) : Byte × Byte × Byte :=
  let rf : ℚ := ((r : ℕ) : ℚ) / 255
  let gf : ℚ := ((g : ℕ) : ℚ) / 255
  let bf : ℚ := ((b : ℕ) : ℚ) / 255
  let luminance := 0.2126 * rf + 0.7152 * gf + 0.0722 * bf
  let fr := rf + (luminance - rf) * intensity
  let fg := gf + (luminance - gf) * intensity
  let fb := bf + (luminance - bf) * intensity
  (clamp_uint8 (qmax 0 (qmin 1 fr) * 255),
   clamp_uint8 (qmax 0 (qmin 1 fg) * 255),
   clamp_uint8 (qmax 0 (qmin 1 fb) * 255))

/-- One loop iteration of filter_black_and_white at pixel index i. -/
def bw_write (intensity : ℚ) (i : ℕ) (data : List Byte) : List Byte :=
  let idx := i * 4
  let r := data.getD idx 0
  let g := data.getD (idx + 1) 0
  let b := data.getD (idx + 2) 0
  let a := data.getD (idx + 3) 0
  let rgb := bw_pixel intensity r g b
  ((((data.set idx rgb.1).set (idx + 1) rgb.2.1).set
      (idx + 2) rgb.2.2).set (idx + 3) a)

/-- The pixel loop of filter_black_and_white: k pixels from index i. -/
def bw_loop (intensity : ℚ) : ℕ → ℕ → List Byte → List Byte
  | 0, _, data => data
  | k + 1, i, data => bw_loop intensity k (i + 1) (bw_write intensity i data)

/-- Model of filter_black_and_white from src/filters/black_and_white.c.
Mirroring the source, there is no pixel-format guard at all: the buffer is
processed as RGBA whatever the format field of the frame says; the only
guards are the NULL checks (absorbed by the model taking values) and the
negative-intensity check, and intensity is clamped to at most 1. -/
def filter_black_and_white (frame : video_frame_t) (intensity : ℚ) :
    video_frame_t :=
  if intensity < 0 then frame
  else
    { frame with
        data := bw_loop (if 1 < intensity then 1 else intensity)
          ((frame.width * frame.height).toNat) 0 frame.data }

/-- Concrete 1 by 1 frame whose format field is 0 (RGB, not RGBA). -/
def frame_rgb : video_frame_t :=
  { data := [0, 100, 200, 7], width := 1, height := 1, stride := 3,
    format := 0, timestamp := 0, frame_number := 0 }

/-- Evaluation rule for clamp_uint8 at a value lying in [n, n + 1). -/
theorem clamp_uint8_eq (v : ℚ) (n : ℕ) (h0 : 0 ≤ v) (hl : (n : ℚ) ≤ v)
    (hu : v < (n : ℚ) + 1) (h3 : n < 256) : clamp_uint8 v = ⟨n, h3⟩ := by
  by_cases hv : (255 : ℚ) < v
  · have hn : n = 255 := by
      have h4 : (255 : ℚ) < (n : ℚ) + 1 := lt_trans hv hu
      have h5 : (255 : ℕ) < n + 1 := by exact_mod_cast h4
      omega
    rw [clamp_uint8, if_neg (not_lt.2 h0), dif_pos hv]
    subst hn
    rfl
  · rw [clamp_uint8, if_neg (not_lt.2 h0), dif_neg hv]
    apply Fin.ext
    show (⌊v⌋).toNat = n
    have hf : ⌊v⌋ = (n : ℤ) := by
      rw [Int.floor_eq_iff]
      constructor
      · exact_mod_cast hl
      · push_cast
        exact hu
    rw [hf]
    simp

/-- Value of the black-and-white transform at full intensity on the pixel
(0, 100, 200): every channel becomes the truncated BT.709 luminance 85. -/
theorem bw_pixel_ex :
    bw_pixel 1 (0 : Byte) (100 : Byte) (200 : Byte) =
      ((85 : Byte), (85 : Byte), (85 : Byte)) := by
  show (clamp_uint8 (qmax 0 (qmin 1 ((0 : ℚ) / 255 +
          ((0.2126 * ((0 : ℚ) / 255) + 0.7152 * ((100 : ℚ) / 255) +
            0.0722 * ((200 : ℚ) / 255)) - (0 : ℚ) / 255) * 1)) * 255),
        clamp_uint8 (qmax 0 (qmin 1 ((100 : ℚ) / 255 +
          ((0.2126 * ((0 : ℚ) / 255) + 0.7152 * ((100 : ℚ) / 255) +
            0.0722 * ((200 : ℚ) / 255)) - (100 : ℚ) / 255) * 1)) * 255),
        clamp_uint8 (qmax 0 (qmin 1 ((200 : ℚ) / 255 +
          ((0.2126 * ((0 : ℚ) / 255) + 0.7152 * ((100 : ℚ) / 255) +
            0.0722 * ((200 : ℚ) / 255)) - (200 : ℚ) / 255) * 1)) * 255))
      = ((85 : Byte), (85 : Byte), (85 : Byte))
  have e1 := clamp_uint8_eq (qmax 0 (qmin 1 ((0 : ℚ) / 255 +
          ((0.2126 * ((0 : ℚ) / 255) + 0.7152 * ((100 : ℚ) / 255) +
            0.0722 * ((200 : ℚ) / 255)) - (0 : ℚ) / 255) * 1)) * 255) 85
    (by norm_num [qmin, qmax]) (by norm_num [qmin, qmax])
    (by norm_num [qmin, qmax]) (by norm_num)
  have e2 := clamp_uint8_eq (qmax 0 (qmin 1 ((100 : ℚ) / 255 +
          ((0.2126 * ((0 : ℚ) / 255) + 0.7152 * ((100 : ℚ) / 255) +
            0.0722 * ((200 : ℚ) / 255)) - (100 : ℚ) / 255) * 1)) * 255) 85
    (by norm_num [qmin, qmax]) (by norm_num [qmin, qmax])
    (by norm_num [qmin, qmax]) (by norm_num)
  have e3 := clamp_uint8_eq (qmax 0 (qmin 1 ((200 : ℚ) / 255 +
          ((0.2126 * ((0 : ℚ) / 255) + 0.7152 * ((100 : ℚ) / 255) +
            0.0722 * ((200 : ℚ) / 255)) - (200 : ℚ) / 255) * 1)) * 255) 85
    (by norm_num [qmin, qmax]) (by norm_num [qmin, qmax])
    (by norm_num [qmin, qmax]) (by norm_num)
  rw [e1, e2, e3]
  rfl

/-- C4 counterexample: the claim says every filter of the filter library is
a silent no-op on a frame whose format is not RGBA, but
filter_black_and_white never consults the format: on the RGB-format frame
frame_rgb at intensity 1 it rewrites the buffer (to the luminance gray
85 85 85, alpha byte preserved), reinterpreting the memory as RGBA. -/
theorem filter_black_and_white_ignores_format :
    frame_rgb.format ≠ 1
      ∧ (filter_black_and_white frame_rgb 1).data ≠ frame_rgb.data
      ∧ (filter_black_and_white frame_rgb 1).data = [85, 85, 85, 7] := by
  have hdata : (filter_black_and_white frame_rgb 1).data =
      [85, 85, 85, 7] := by
    show [(bw_pixel 1 (0 : Byte) (100 : Byte) (200 : Byte)).1,
          (bw_pixel 1 (0 : Byte) (100 : Byte) (200 : Byte)).2.1,
          (bw_pixel 1 (0 : Byte) (100 : Byte) (200 : Byte)).2.2,
          (7 : Byte)] = [85, 85, 85, 7]
    rw [bw_pixel_ex]
  refine ⟨by decide, ?_, hdata⟩
  rw [hdata]
  decide

/-- C4 (amended): filter_color_correction (like blur and sharpen, which
carry the same guard) is a silent no-op on any frame whose pixel format is
not RGBA; but the stylized filters have no format guard, exemplified by
filter_black_and_white, whose output does not depend on the format field at
all, so a non-RGBA frame has its buffer reinterpreted as RGBA rather than
left unchanged. -/
theorem filters_format_guard :
    (∀ (frame : video_frame_t) (params : color_correction_t),
      frame.format ≠ 1 → filter_color_correction frame params = frame)
    ∧ (∀ (frame : video_frame_t) (intensity : ℚ),
      (filter_black_and_white frame intensity).data =
        (filter_black_and_white { frame with format := 1 } intensity).data) := by
  constructor
  · intro frame params h
    rw [filter_color_correction, if_pos h]
  · intro frame intensity
    by_cases h : intensity < 0 <;>
      simp [filter_black_and_white, h]

/-- Witness for filters_format_guard at concrete inputs. -/
theorem filters_format_guard_witness :
    filter_color_correction frame_rgb cc_identity = frame_rgb
      ∧ (filter_black_and_white frame_rgb 1).data =
          (filter_black_and_white { frame_rgb with format := 1 } 1).data :=
  ⟨filters_format_guard.1 frame_rgb cc_identity (by decide),
   filters_format_guard.2 frame_rgb 1⟩

/-- Identity-parameter color correction on channel byte 10 under float32
rounding: the contrast pivot does not round-trip and the truncating cast
yields 9. -/
theorem cc_f32_channel_ten :
    clamp_uint8 (fl32 (fl32 (fl32 (fl32 (fl32 (fl32 (fl32 ((10 : ℚ) / 255)
        + 0) - 1/2) * fl32 (1 + 0)) + 1/2) * qpowf 2 0) * 255))
      = (9 : Byte) := by
  have h1 : fl32 ((10 : ℚ) / 255) = 10526881/268435456 :=
    fl32_eval_pos ((10 : ℚ) / 255) (10526881/268435456) (-5) 10526881
      (by norm_num) (by norm_num) (by norm_num)
      (rne_eq_high _ 10526880 10526881 (by norm_num) (by norm_num) (by norm_num))
      (by norm_num)
  have h2 : fl32 ((10526881/268435456 : ℚ) + 0) = 10526881/268435456 :=
    fl32_eval_pos ((10526881/268435456 : ℚ) + 0) (10526881/268435456) (-5) 10526881
      (by norm_num) (by norm_num) (by norm_num)
      (rne_eq_low _ 10526881 (by norm_num) (by norm_num))
      (by norm_num)
  have h3 : fl32 ((10526881/268435456 : ℚ) - 1/2) = -(3865339/8388608) :=
    fl32_eval_neg ((10526881/268435456 : ℚ) - 1/2) (-(3865339/8388608)) (-2) 15461356
      (by norm_num) (by norm_num) (by norm_num)
      (rne_eq_high _ 15461355 15461356 (by norm_num) (by norm_num) (by norm_num))
      (by norm_num)
  have h4 : fl32 ((-(3865339/8388608) : ℚ) * 1) = -(3865339/8388608) :=
    fl32_eval_neg ((-(3865339/8388608) : ℚ) * 1) (-(3865339/8388608)) (-2) 15461356
      (by norm_num) (by norm_num) (by norm_num)
      (rne_eq_low _ 15461356 (by norm_num) (by norm_num))
      (by norm_num)
  have h5 : fl32 ((-(3865339/8388608) : ℚ) + 1/2) = 328965/8388608 :=
    fl32_eval_pos ((-(3865339/8388608) : ℚ) + 1/2) (328965/8388608) (-5) 10526880
      (by norm_num) (by norm_num) (by norm_num)
      (rne_eq_low _ 10526880 (by norm_num) (by norm_num))
      (by norm_num)
  have h6 : fl32 ((328965/8388608 : ℚ) * 1) = 328965/8388608 :=
    fl32_eval_pos ((328965/8388608 : ℚ) * 1) (328965/8388608) (-5) 10526880
      (by norm_num) (by norm_num) (by norm_num)
      (rne_eq_low _ 10526880 (by norm_num) (by norm_num))
      (by norm_num)
  have h7 : fl32 ((328965/8388608 : ℚ) * 255) = 10485759/1048576 :=
    fl32_eval_pos ((328965/8388608 : ℚ) * 255) (10485759/1048576) (3) 10485759
      (by norm_num) (by norm_num) (by norm_num)
      (rne_eq_low _ 10485759 (by norm_num) (by norm_num))
      (by norm_num)
  rw [h1, h2, h3, fl32_one, h4, h5, qpowf_two_zero, h6, h7]
  exact clamp_uint8_eq _ 9 (by norm_num) (by norm_num) (by norm_num)
    (by norm_num)

/-- Identity-parameter color correction on channel byte 20 under float32
rounding: the contrast pivot does not round-trip and the truncating cast
yields 19. -/
theorem cc_f32_channel_twenty :
    clamp_uint8 (fl32 (fl32 (fl32 (fl32 (fl32 (fl32 (fl32 ((20 : ℚ) / 255)
        + 0) - 1/2) * fl32 (1 + 0)) + 1/2) * qpowf 2 0) * 255))
      = (19 : Byte) := by
  have h1 : fl32 ((20 : ℚ) / 255) = 10526881/134217728 :=
    fl32_eval_pos ((20 : ℚ) / 255) (10526881/134217728) (-4) 10526881
      (by norm_num) (by norm_num) (by norm_num)
      (rne_eq_high _ 10526880 10526881 (by norm_num) (by norm_num) (by norm_num))
      (by norm_num)
  have h2 : fl32 ((10526881/134217728 : ℚ) + 0) = 10526881/134217728 :=
    fl32_eval_pos ((10526881/134217728 : ℚ) + 0) (10526881/134217728) (-4) 10526881
      (by norm_num) (by norm_num) (by norm_num)
      (rne_eq_low _ 10526881 (by norm_num) (by norm_num))
      (by norm_num)
  have h3 : fl32 ((10526881/134217728 : ℚ) - 1/2) = -(1768187/4194304) :=
    fl32_eval_neg ((10526881/134217728 : ℚ) - 1/2) (-(1768187/4194304)) (-2) 14145496
      (by norm_num) (by norm_num) (by norm_num)
      (rne_eq_high _ 14145495 14145496 (by norm_num) (by norm_num) (by norm_num))
      (by norm_num)
  have h4 : fl32 ((-(1768187/4194304) : ℚ) * 1) = -(1768187/4194304) :=
    fl32_eval_neg ((-(1768187/4194304) : ℚ) * 1) (-(1768187/4194304)) (-2) 14145496
      (by norm_num) (by norm_num) (by norm_num)
      (rne_eq_low _ 14145496 (by norm_num) (by norm_num))
      (by norm_num)
  have h5 : fl32 ((-(1768187/4194304) : ℚ) + 1/2) = 328965/4194304 :=
    fl32_eval_pos ((-(1768187/4194304) : ℚ) + 1/2) (328965/4194304) (-4) 10526880
      (by norm_num) (by norm_num) (by norm_num)
      (rne_eq_low _ 10526880 (by norm_num) (by norm_num))
      (by norm_num)
  have h6 : fl32 ((328965/4194304 : ℚ) * 1) = 328965/4194304 :=
    fl32_eval_pos ((328965/4194304 : ℚ) * 1) (328965/4194304) (-4) 10526880
      (by norm_num) (by norm_num) (by norm_num)
      (rne_eq_low _ 10526880 (by norm_num) (by norm_num))
      (by norm_num)
  have h7 : fl32 ((328965/4194304 : ℚ) * 255) = 10485759/524288 :=
    fl32_eval_pos ((328965/4194304 : ℚ) * 255) (10485759/524288) (4) 10485759
      (by norm_num) (by norm_num) (by norm_num)
      (rne_eq_low _ 10485759 (by norm_num) (by norm_num))
      (by norm_num)
  rw [h1, h2, h3, fl32_one, h4, h5, qpowf_two_zero, h6, h7]
  exact clamp_uint8_eq _ 19 (by norm_num) (by norm_num) (by norm_num)
    (by norm_num)

/-- Identity-parameter color correction on channel byte 30 under float32
rounding: the contrast pivot does not round-trip and the truncating cast
yields 29. -/
theorem cc_f32_channel_thirty :
    clamp_uint8 (fl32 (fl32 (fl32 (fl32 (fl32 (fl32 (fl32 ((30 : ℚ) / 255)
        + 0) - 1/2) * fl32 (1 + 0)) + 1/2) * qpowf 2 0) * 255))
      = (29 : Byte) := by
  have h1 : fl32 ((30 : ℚ) / 255) = 15790321/134217728 :=
    fl32_eval_pos ((30 : ℚ) / 255) (15790321/134217728) (-4) 15790321
      (by norm_num) (by norm_num) (by norm_num)
      (rne_eq_high _ 15790320 15790321 (by norm_num) (by norm_num) (by norm_num))
      (by norm_num)
  have h2 : fl32 ((15790321/134217728 : ℚ) + 0) = 15790321/134217728 :=
    fl32_eval_pos ((15790321/134217728 : ℚ) + 0) (15790321/134217728) (-4) 15790321
      (by norm_num) (by norm_num) (by norm_num)
      (rne_eq_low _ 15790321 (by norm_num) (by norm_num))
      (by norm_num)
  have h3 : fl32 ((15790321/134217728 : ℚ) - 1/2) = -(3207409/8388608) :=
    fl32_eval_neg ((15790321/134217728 : ℚ) - 1/2) (-(3207409/8388608)) (-2) 12829636
      (by norm_num) (by norm_num) (by norm_num)
      (rne_eq_high _ 12829635 12829636 (by norm_num) (by norm_num) (by norm_num))
      (by norm_num)
  have h4 : fl32 ((-(3207409/8388608) : ℚ) * 1) = -(3207409/8388608) :=
    fl32_eval_neg ((-(3207409/8388608) : ℚ) * 1) (-(3207409/8388608)) (-2) 12829636
      (by norm_num) (by norm_num) (by norm_num)
      (rne_eq_low _ 12829636 (by norm_num) (by norm_num))
      (by norm_num)
  have h5 : fl32 ((-(3207409/8388608) : ℚ) + 1/2) = 986895/8388608 :=
    fl32_eval_pos ((-(3207409/8388608) : ℚ) + 1/2) (986895/8388608) (-4) 15790320
      (by norm_num) (by norm_num) (by norm_num)
      (rne_eq_low _ 15790320 (by norm_num) (by norm_num))
      (by norm_num)
  have h6 : fl32 ((986895/8388608 : ℚ) * 1) = 986895/8388608 :=
    fl32_eval_pos ((986895/8388608 : ℚ) * 1) (986895/8388608) (-4) 15790320
      (by norm_num) (by norm_num) (by norm_num)
      (rne_eq_low _ 15790320 (by norm_num) (by norm_num))
      (by norm_num)
  have h7 : fl32 ((986895/8388608 : ℚ) * 255) = 15728639/524288 :=
    fl32_eval_pos ((986895/8388608 : ℚ) * 255) (15728639/524288) (4) 15728639
      (by norm_num) (by norm_num) (by norm_num)
      (rne_eq_low _ 15728639 (by norm_num) (by norm_num))
      (by norm_num)
  rw [h1, h2, h3, fl32_one, h4, h5, qpowf_two_zero, h6, h7]
  exact clamp_uint8_eq _ 29 (by norm_num) (by norm_num) (by norm_num)
    (by norm_num)

/-- Value of identity-parameter color correction on the pixel (10, 20, 30)
under float32 rounding: the three channels come back one lower. -/
theorem cc_pixel_identity_drops :
    cc_pixel cc_identity (10 : Byte) (20 : Byte) (30 : Byte) =
      ((9 : Byte), (19 : Byte), (29 : Byte)) := by
  show (clamp_uint8 (fl32 (fl32 (fl32 (fl32 (fl32 (fl32 (fl32 ((10 : ℚ)
          / 255) + 0) - 1/2) * fl32 (1 + 0)) + 1/2) * qpowf 2 0) * 255)),
        clamp_uint8 (fl32 (fl32 (fl32 (fl32 (fl32 (fl32 (fl32 ((20 : ℚ)
          / 255) + 0) - 1/2) * fl32 (1 + 0)) + 1/2) * qpowf 2 0) * 255)),
        clamp_uint8 (fl32 (fl32 (fl32 (fl32 (fl32 (fl32 (fl32 ((30 : ℚ)
          / 255) + 0) - 1/2) * fl32 (1 + 0)) + 1/2) * qpowf 2 0) * 255)))
      = ((9 : Byte), (19 : Byte), (29 : Byte))
  rw [cc_f32_channel_ten, cc_f32_channel_twenty, cc_f32_channel_thirty]

/-- C8 (code bug): the spec states the testable property that color
correction at the identity parameters (brightness 0, contrast 0,
saturation 0, hue 0, gamma 1, exposure 0) is byte-identical, but the code
computes the contrast step (rf - 0.5f) * (1.0f + 0.0f) + 0.5f in float32,
where the pivot subtraction rounds and does not round-trip; after the
final multiply by 255.0f and the truncating uint8_t cast, many byte values
come back one lower. On the RGBA frame frame_ex with pixel (10, 20, 30, 40)
the call returns (9, 19, 29, 40), not the identity. -/
theorem filter_color_correction_identity_fails :
    (filter_color_correction frame_ex cc_identity).data = [9, 19, 29, 40]
      ∧ filter_color_correction frame_ex cc_identity ≠ frame_ex := by
  have hdata : (filter_color_correction frame_ex cc_identity).data =
      [9, 19, 29, 40] := by
    show [(cc_pixel cc_identity (10 : Byte) (20 : Byte) (30 : Byte)).1,
          (cc_pixel cc_identity (10 : Byte) (20 : Byte) (30 : Byte)).2.1,
          (cc_pixel cc_identity (10 : Byte) (20 : Byte) (30 : Byte)).2.2,
          (40 : Byte)] = [9, 19, 29, 40]
    rw [cc_pixel_identity_drops]
  refine ⟨hdata, ?_⟩
  intro h
  rw [h] at hdata
  exact absurd hdata (by decide)

/-- One pixel write of transition_dissolve at coordinates x, y: the
position-derived threshold (x * 31 + y * 17) mod 100 over 100 picks frame2
when progress exceeds it, frame1 otherwise, and all four bytes of the chosen
source pixel are copied to the output. -/
def dissolve_write (f1 f2 : List Byte) (w : ℕ) (progress : ℚ) (x y : ℕ)
    (out : List Byte) : List Byte :=
  let idx := (y * w + x) * 4
  let src := if ((((x * 31 + y * 17) % 100 : ℕ) : ℚ) / 100) < progress
             then f2 else f1
  ((((out.set idx (src.getD idx 0)).set (idx + 1)
      (src.getD (idx + 1) 0)).set (idx + 2)
      (src.getD (idx + 2) 0)).set (idx + 3) (src.getD (idx + 3) 0))

/-- Inner loop of transition_dissolve over one row: k pixels from column
x. -/
def dissolve_row (f1 f2 : List Byte) (w : ℕ) (p : ℚ) (y : ℕ) :
    ℕ → ℕ → List Byte → List Byte
  | 0, _, out => out
  | k + 1, x, out =>
      dissolve_row f1 f2 w p y k (x + 1) (dissolve_write f1 f2 w p x y out)

/-- Outer loop of transition_dissolve over the rows: k rows from row y. -/
def dissolve_rows (f1 f2 : List Byte) (w : ℕ) (p : ℚ) :
    ℕ → ℕ → List Byte → List Byte
  | 0, _, out => out
  | k + 1, y, out =>
      dissolve_rows f1 f2 w p k (y + 1) (dissolve_row f1 f2 w p y w 0 out)

/-- Model of transition_dissolve from src/transitions/dissolve.c: progress
is clamped into [0, 1], then every output pixel inside the output
width-by-height grid is chosen per the position-derived threshold. The NULL
frame guards are absorbed by the model taking values. -/
def transition_dissolve (frame1 frame2 output : video_frame_t)
    (progress : ℚ) : video_frame_t :=
  { output with
      data := dissolve_rows frame1.data frame2.data output.width.toNat
        (qmax 0 (qmin 1 progress)) output.height.toNat 0 output.data }

/-- C9: transition_dissolve is deterministic: two calls on byte-identical
input frames and equal progress produce byte-identical output. The model is
a pure function of exactly the two source frames, the output frame and the
progress value (the threshold pattern is derived from pixel coordinates
alone), so equal inputs force equal outputs. -/
theorem transition_dissolve_deterministic
    (f1 f2 out f1p f2p outp : video_frame_t) (p pp : ℚ)
    (h1 : f1 = f1p) (h2 : f2 = f2p) (h3 : out = outp) (hp : p = pp) :
    transition_dissolve f1 f2 out p = transition_dissolve f1p f2p outp pp := by
  subst h1
  subst h2
  subst h3
  subst hp
  rfl

/-- Witness for transition_dissolve_deterministic at concrete frames. -/
theorem transition_dissolve_deterministic_witness :
    transition_dissolve frame_ex frame_rgb frame_ex (1/2) =
      transition_dissolve frame_ex frame_rgb frame_ex (1/2) :=
  transition_dissolve_deterministic frame_ex frame_rgb frame_ex frame_ex
    frame_rgb frame_ex (1/2) (1/2) rfl rfl rfl rfl

end CinemaStudio
